import Mathlib

/-!
# Shallow embedding of the kube-state-metrics limitrange / componentstatus collectors

This file embeds `src/collectors/limitrange.go` and the componentstatus
collector source file into Lean 4 and proves the specification claims
about them.

Modelling conventions:

* A `resource.Quantity` is represented by its milli-unit integer value
  (the result of `Quantity.MilliValue()`), since the collectors only ever
  read quantities through `MilliValue()`.
* A Go `map` (`v1.ResourceList = map[ResourceName]resource.Quantity`) is
  represented by the list of its entries.  The Go language specification
  leaves the iteration order of `range` over a map unspecified (and the
  runtime deliberately varies it), so two entry lists that are
  permutations of each other represent the same Go map value; `sameGoMap`
  below captures this.
* `metav1.Time` is represented by `Option Int`: `none` is the zero time
  (`IsZero()` returns true), `some u` a non-zero time whose `Unix()` is `u`.
* `float64` sample values are represented by `Rat`.  The spec's stance is
  that numeric fields are taken at full precision, so the embedding keeps
  exact arithmetic; `float64(m)/1000` is rendered as `(m : Rat) / 1000`.
* Each collector's `Collect` writes to a channel `ch` and to the two
  process-wide scrape metrics.  This is embedded as a pure function from
  the `List()` result to an ordered trace of `Event`s: incrementing the
  scrape-error counter, observing the resources-per-scrape count, and
  sending one metric sample are the three event constructors.
-/

namespace KSM

/-- Error value returned by a `List()` call (`error` in Go). -/
abbrev Err := String

/-- A `resource.Quantity`, represented by its `MilliValue()`. -/
abbrev Quantity := Int

/-- `v1.ResourceName` (a Go string type). -/
abbrev ResourceName := String

/-- `v1.ResourceList = map[ResourceName]Quantity`, as its list of entries.
Entry order is a presentation artefact: Go does not specify map iteration
order, so permuted entry lists denote the same map (see `sameGoMap`). -/
abbrev ResourceList := List (ResourceName × Quantity)

/-- Two entry lists present the same Go map exactly when they are
permutations of each other. -/
def sameGoMap (a b : ResourceList) : Prop := a.Perm b

/-- `v1.LimitRangeItem`: one entry of `LimitRange.Spec.Limits`. -/
structure LimitRangeItem where
  type : String
  max : ResourceList
  min : ResourceList
  default : ResourceList
  defaultRequest : ResourceList
  maxLimitRequestRatio : ResourceList
  deriving Repr, DecidableEq

/-- `v1.LimitRange`, restricted to the fields the collector reads:
`Name`, `Namespace`, `CreationTimestamp` and `Spec.Limits`.
`creationTimestamp` is `none` for the zero time (`IsZero()`),
`some u` for a non-zero time with `Unix() = u`. -/
structure LimitRange where
  name : String
  ns : String
  creationTimestamp : Option Int
  limits : List LimitRangeItem
  deriving Repr, DecidableEq

/-- `v1.LimitRangeList`, restricted to `Items`. -/
structure LimitRangeList where
  items : List LimitRange
  deriving Repr, DecidableEq

/-- `v1.ConditionStatus` is a Go string type; its canonical values are
"True", "False" and "Unknown" but the type admits any string. -/
abbrev ConditionStatus := String

/-- `v1.ConditionTrue`. -/
def ConditionTrue : ConditionStatus := "True"

/-- `v1.ConditionFalse`. -/
def ConditionFalse : ConditionStatus := "False"

/-- `v1.ConditionUnknown`. -/
def ConditionUnknown : ConditionStatus := "Unknown"

/-- `v1.ComponentHealthy`, the only `ComponentConditionType` constant. -/
def ComponentHealthy : String := "Healthy"

/-- `v1.ComponentCondition`, restricted to the fields the collector reads. -/
structure ComponentCondition where
  type : String
  status : ConditionStatus
  deriving Repr, DecidableEq

/-- `v1.ComponentStatus`, restricted to `Name` and `Conditions`. -/
structure ComponentStatus where
  name : String
  conditions : List ComponentCondition
  deriving Repr, DecidableEq

/-- `v1.ComponentStatusList`, restricted to `Items`. -/
structure ComponentStatusList where
  items : List ComponentStatus
  deriving Repr, DecidableEq

/-- `prometheus.ValueType`; the collectors only ever use `GaugeValue`. -/
inductive ValueType where
  | gaugeValue
  deriving Repr, DecidableEq

/-- `prometheus.Desc`: metric family name, help text, ordered variable
label names (`prometheus.NewDesc` arguments, const labels always nil). -/
structure Desc where
  fqName : String
  help : String
  variableLabels : List String
  deriving Repr, DecidableEq

/-- `descLimitRange` from limitrange.go. -/
def descLimitRange : Desc :=
  { fqName := "kube_limitrange"
    help := "Information about limit range."
    variableLabels := ["limitrange", "namespace", "resource", "type", "constraint"] }

/-- `descLimitRangeCreated` from limitrange.go. -/
def descLimitRangeCreated : Desc :=
  { fqName := "kube_limitrange_created"
    help := "Unix creation timestamp"
    variableLabels := ["limitrange", "namespace"] }

/-- `descComponentStatusStatusHealthy` from the componentstatus source. -/
def descComponentStatusStatusHealthy : Desc :=
  { fqName := "kube_componentstatus_status_healthy"
    help := "kube component status healthy status."
    variableLabels := ["name", "status"] }

/-- A metric sample as built by `prometheus.MustNewConstMetric`:
descriptor, value type, value, ordered label values. -/
structure Metric where
  desc : Desc
  valueType : ValueType
  value : Rat
  labelValues : List String
  deriving Repr, DecidableEq

/-- `boolFloat64` helper from the collectors package. -/
def boolFloat64 (b : Bool) : Rat := if b then 1 else 0

/-- The `addGauge` closure of `collectLimitRange`: prepends the object's
name and namespace to the variadic label values and builds a gauge. -/
def addGaugeLR (rq : LimitRange) (desc : Desc) (v : Rat) (lv : List String) : Metric :=
  { desc := desc, valueType := .gaugeValue, value := v
    labelValues := [rq.name, rq.ns] ++ lv }

/-- The samples produced by the body of the `for _, rawLimitRange :=
range rawLimitRanges` loop for one `LimitRangeItem`: one gauge per entry
of each of the five constraint maps, in source order of the loops. -/
def limitRangeItemSamples (rq : LimitRange) (item : LimitRangeItem) : List Metric :=
  item.min.map (fun e =>
    addGaugeLR rq descLimitRange ((e.2 : Rat) / 1000) [e.1, item.type, "min"]) ++
  item.max.map (fun e =>
    addGaugeLR rq descLimitRange ((e.2 : Rat) / 1000) [e.1, item.type, "max"]) ++
  item.default.map (fun e =>
    addGaugeLR rq descLimitRange ((e.2 : Rat) / 1000) [e.1, item.type, "default"]) ++
  item.defaultRequest.map (fun e =>
    addGaugeLR rq descLimitRange ((e.2 : Rat) / 1000) [e.1, item.type, "defaultRequest"]) ++
  item.maxLimitRequestRatio.map (fun e =>
    addGaugeLR rq descLimitRange ((e.2 : Rat) / 1000) [e.1, item.type, "maxLimitRequestRatio"])

/-- `limitRangeCollector.collectLimitRange`: the `_created` gauge when the
creation timestamp is non-zero, then the per-item constraint gauges. -/
def collectLimitRange (rq : LimitRange) : List Metric :=
  (match rq.creationTimestamp with
   | none => []
   | some u => [addGaugeLR rq descLimitRangeCreated (u : Rat) []]) ++
  rq.limits.flatMap (limitRangeItemSamples rq)

/-- The `addConstMetric`/`addGauge` closures of `collectComponentStatus`:
prepend the object's name to the label values and build a gauge. -/
def addGaugeCS (s : ComponentStatus) (desc : Desc) (v : Rat) (lv : List String) : Metric :=
  { desc := desc, valueType := .gaugeValue, value := v
    labelValues := [s.name] ++ lv }

/-- The three status gauges emitted for the first `ComponentHealthy`
condition found: one per canonical status value, 1 where the condition's
status matches, 0 elsewhere. -/
def healthyExpansion (s : ComponentStatus) (p : ComponentCondition) : List Metric :=
  [addGaugeCS s descComponentStatusStatusHealthy
     (boolFloat64 (p.status == ConditionTrue)) [ConditionTrue],
   addGaugeCS s descComponentStatusStatusHealthy
     (boolFloat64 (p.status == ConditionFalse)) [ConditionFalse],
   addGaugeCS s descComponentStatusStatusHealthy
     (boolFloat64 (p.status == ConditionUnknown)) [ConditionUnknown]]

/-- The `for _, p := range s.Conditions` loop of `collectComponentStatus`:
on the first condition of type `ComponentHealthy` it emits the tri-state
expansion and `break`s; other condition types are skipped. -/
def collectComponentStatusLoop (s : ComponentStatus) :
    List ComponentCondition → List Metric
  | [] => []
  | p :: rest =>
    if p.type == ComponentHealthy then healthyExpansion s p
    else collectComponentStatusLoop s rest

/-- `componentStatusCollector.collectComponentStatus`. -/
def collectComponentStatus (s : ComponentStatus) : List Metric :=
  collectComponentStatusLoop s s.conditions

/-- One observable action of a `Collect` call: incrementing the
scrape-error counter (`ScrapeErrorTotalMetric.With({resource: kind}).Inc()`),
observing the resources-per-scrape count
(`ResourcesPerScrapeMetric.With({resource: kind}).Observe(n)`), or sending
one sample on the channel (`ch <- ...`).  A `Collect` call is embedded as
the ordered trace of these actions. -/
inductive Event where
  | scrapeError (resource : String)
  | observeResources (resource : String) (count : Nat)
  | sample (m : Metric)
  deriving Repr, DecidableEq

/-- `limitRangeCollector.Collect`, as the trace of its actions given the
result of `lrc.store.List()`.  On error it increments the error counter
and returns; on success it observes the item count, then converts every
item in order. -/
def limitRangeCollect (listResult : Except Err LimitRangeList) : List Event :=
  match listResult with
  | .error _ => [.scrapeError "limitrange"]
  | .ok l =>
      .observeResources "limitrange" l.items.length ::
        (l.items.flatMap collectLimitRange).map .sample

/-- `componentStatusCollector.Collect`, as the trace of its actions given
the result of `csc.store.List()`. -/
def componentStatusCollect (listResult : Except Err ComponentStatusList) : List Event :=
  match listResult with
  | .error _ => [.scrapeError "componentstatus"]
  | .ok l =>
      .observeResources "componentstatus" l.items.length ::
        (l.items.flatMap collectComponentStatus).map .sample

/-- The shared informer a registration function builds: its store's
current contents, and its `HasSynced` flag (false until the initial list
from the remote API has been mirrored). -/
structure SharedInformer (α : Type) where
  storeItems : List α
  hasSynced : Bool
  deriving Repr, DecidableEq

/-- The `LimitRangeLister` closure built in `RegisterLimitRangeCollector`:
it copies the informer store's current contents into a `LimitRangeList`
and returns it with a nil error.  It never consults `HasSynced` and has no
error path. -/
def registeredLimitRangeLister (inf : SharedInformer LimitRange) :
    LimitRangeList × Option Err :=
  ({ items := inf.storeItems }, none)

/-- The `ComponentStatusLister` closure built in
`RegisterComponentStatusCollector`, likewise. -/
def registeredComponentStatusLister (inf : SharedInformer ComponentStatus) :
    ComponentStatusList × Option Err :=
  ({ items := inf.storeItems }, none)

/-- Whether an event is an increment of the scrape-error counter. -/
def Event.isScrapeError : Event → Bool
  | .scrapeError _ => true
  | _ => false

/-- Whether an event is a resources-per-scrape observation. -/
def Event.isObserve : Event → Bool
  | .observeResources _ _ => true
  | _ => false

/-- Whether an event is the emission of a metric sample. -/
def Event.isSample : Event → Bool
  | .sample _ => true
  | _ => false

/-- Whether an event emits a sample of the
`kube_componentstatus_status_healthy` family. -/
def Event.isHealthySample : Event → Bool
  | .sample m => m.desc == descComponentStatusStatusHealthy
  | _ => false

/-- Two `LimitRangeItem` values are presentations of the same Go struct
when their `Type` strings agree and each of the five constraint maps is
the same Go map (entry lists equal up to permutation). -/
def sameLimitRangeItem (a b : LimitRangeItem) : Prop :=
  a.type = b.type ∧ sameGoMap a.max b.max ∧ sameGoMap a.min b.min ∧
    sameGoMap a.default b.default ∧ sameGoMap a.defaultRequest b.defaultRequest ∧
    sameGoMap a.maxLimitRequestRatio b.maxLimitRequestRatio

/-- Two `LimitRange` values are presentations of the same Go object when
all scalar fields agree and the limit items agree pointwise up to map
presentation. -/
def sameLimitRange (a b : LimitRange) : Prop :=
  a.name = b.name ∧ a.ns = b.ns ∧ a.creationTimestamp = b.creationTimestamp ∧
    List.Forall₂ sameLimitRangeItem a.limits b.limits

/-- Two `LimitRangeList` values are presentations of the same snapshot
when their items agree pointwise up to map presentation. -/
def sameLimitRangeList (a b : LimitRangeList) : Prop :=
  List.Forall₂ sameLimitRange a.items b.items

/-! ## Helper lemmas -/

/-- The condition loop of `collectComponentStatus` emits the tri-state
expansion of the first `ComponentHealthy` condition, if any. -/
lemma collectComponentStatusLoop_eq_find (s : ComponentStatus) :
    ∀ conds : List ComponentCondition,
      collectComponentStatusLoop s conds =
        match conds.find? (fun p => p.type == ComponentHealthy) with
        | some p => healthyExpansion s p
        | none => []
  | [] => rfl
  | p :: rest => by
    by_cases h : p.type == ComponentHealthy
    · simp [collectComponentStatusLoop, h, List.find?]
    · simp only [Bool.not_eq_true] at h
      simp [collectComponentStatusLoop, h, List.find?,
        collectComponentStatusLoop_eq_find s rest]

/-- The condition loop emits three samples when some condition has type
`ComponentHealthy` and none otherwise. -/
lemma collectComponentStatusLoop_length (s : ComponentStatus) :
    ∀ conds : List ComponentCondition,
      (collectComponentStatusLoop s conds).length =
        if conds.any (fun p => p.type == ComponentHealthy) then 3 else 0
  | [] => rfl
  | p :: rest => by
    by_cases h : p.type == ComponentHealthy
    · simp [collectComponentStatusLoop, h, healthyExpansion]
    · simp only [Bool.not_eq_true] at h
      simp [collectComponentStatusLoop, h,
        collectComponentStatusLoop_length s rest]

/-- Every sample emitted by `collectComponentStatus` belongs to the
`kube_componentstatus_status_healthy` family. -/
lemma mem_collectComponentStatus_desc (s : ComponentStatus) (m : Metric)
    (hm : m ∈ collectComponentStatus s) :
    m.desc = descComponentStatusStatusHealthy := by
  unfold collectComponentStatus at hm
  rw [collectComponentStatusLoop_eq_find] at hm
  rcases hfind : s.conditions.find? (fun p => p.type == ComponentHealthy) with _ | p <;>
    rw [hfind] at hm
  · simp at hm
  · simp [healthyExpansion, addGaugeCS] at hm
    rcases hm with h | h | h <;> rw [h]

/-- Every constraint sample of one limit item belongs to the
`kube_limitrange` family. -/
lemma mem_limitRangeItemSamples_desc (rq : LimitRange) (item : LimitRangeItem)
    (m : Metric) (hm : m ∈ limitRangeItemSamples rq item) :
    m.desc = descLimitRange := by
  simp [limitRangeItemSamples, List.mem_append, List.mem_map, addGaugeLR] at hm
  rcases hm with ⟨_, _, _, h⟩ | ⟨_, _, _, h⟩ | ⟨_, _, _, h⟩ | ⟨_, _, _, h⟩ | ⟨_, _, _, h⟩ <;>
    rw [← h]

/-- No constraint sample belongs to the `_created` family. -/
lemma filter_created_itemSamples (rq : LimitRange) :
    (rq.limits.flatMap (limitRangeItemSamples rq)).filter
      (fun m => m.desc == descLimitRangeCreated) = [] := by
  rw [List.filter_eq_nil_iff]
  intro m hm
  rcases List.mem_flatMap.mp hm with ⟨item, _, hmem⟩
  rw [mem_limitRangeItemSamples_desc rq item m hmem]
  decide

/-- Every constraint sample of one limit item carries five label values. -/
lemma mem_limitRangeItemSamples_labels (rq : LimitRange) (item : LimitRangeItem)
    (m : Metric) (hm : m ∈ limitRangeItemSamples rq item) :
    m.labelValues.length = 5 := by
  simp [limitRangeItemSamples, List.mem_append, List.mem_map, addGaugeLR] at hm
  rcases hm with ⟨_, _, _, h⟩ | ⟨_, _, _, h⟩ | ⟨_, _, _, h⟩ | ⟨_, _, _, h⟩ | ⟨_, _, _, h⟩ <;>
    · rw [← h]
      rfl

/-- Every sample emitted by `collectComponentStatus` carries two label
values. -/
lemma mem_collectComponentStatus_labels (s : ComponentStatus) (m : Metric)
    (hm : m ∈ collectComponentStatus s) :
    m.labelValues.length = 2 := by
  unfold collectComponentStatus at hm
  rw [collectComponentStatusLoop_eq_find] at hm
  rcases hfind : s.conditions.find? (fun p => p.type == ComponentHealthy) with _ | p <;>
    rw [hfind] at hm
  · simp at hm
  · simp [healthyExpansion, addGaugeCS] at hm
    rcases hm with h | h | h <;>
      · rw [h]
        rfl

/-- Summing the per-object sample counts of the componentstatus converter
counts three samples per object that has a `ComponentHealthy` condition. -/
lemma sum_healthy_lengths :
    ∀ items : List ComponentStatus,
      (items.map (List.length ∘ collectComponentStatus)).sum =
        3 * items.countP (fun s => s.conditions.any (fun p => p.type == ComponentHealthy))
  | [] => rfl
  | s :: t => by
    have hlen : (collectComponentStatus s).length =
        if s.conditions.any (fun p => p.type == ComponentHealthy) then 3 else 0 :=
      collectComponentStatusLoop_length s s.conditions
    by_cases h : s.conditions.any (fun p => p.type == ComponentHealthy)
    · simp [List.countP_cons, sum_healthy_lengths t, hlen, h, Nat.mul_add]
      omega
    · simp [List.countP_cons, sum_healthy_lengths t, hlen, h]

/-- `flatMap` over pointwise related lists with pointwise permuted outputs
yields permuted outputs. -/
lemma flatMap_perm_of_forall₂ {α β : Type} {R : α → α → Prop} {f g : α → List β}
    (hfg : ∀ a b, R a b → (f a).Perm (g b)) :
    ∀ {l1 l2 : List α}, List.Forall₂ R l1 l2 → (l1.flatMap f).Perm (l2.flatMap g) := by
  intro l1 l2 h
  induction h with
  | nil => exact List.Perm.refl _
  | cons hab _ ih =>
      rw [List.flatMap_cons, List.flatMap_cons]
      exact List.Perm.append (hfg _ _ hab) ih

/-- `limitRangeItemSamples` reads only the object's name and namespace. -/
lemma limitRangeItemSamples_congr (r1 r2 : LimitRange) (item : LimitRangeItem)
    (hn : r1.name = r2.name) (hns : r1.ns = r2.ns) :
    limitRangeItemSamples r1 item = limitRangeItemSamples r2 item := by
  simp [limitRangeItemSamples, addGaugeLR, hn, hns]

/-- Presenting one limit item's constraint maps in a different entry order
permutes its samples. -/
lemma limitRangeItemSamples_perm (rq : LimitRange) (a b : LimitRangeItem)
    (h : sameLimitRangeItem a b) :
    (limitRangeItemSamples rq a).Perm (limitRangeItemSamples rq b) := by
  obtain ⟨htype, hmax, hmin, hdf, hdfR, hmLR⟩ := h
  unfold limitRangeItemSamples
  rw [htype]
  exact ((((hmin.map _).append (hmax.map _)).append (hdf.map _)).append
    (hdfR.map _)).append (hmLR.map _)

/-- Presenting one object's constraint maps in a different entry order
permutes the samples of `collectLimitRange`. -/
lemma collectLimitRange_perm (r1 r2 : LimitRange) (h : sameLimitRange r1 r2) :
    (collectLimitRange r1).Perm (collectLimitRange r2) := by
  obtain ⟨hn, hns, hct, hlim⟩ := h
  unfold collectLimitRange
  refine List.Perm.append ?_ ?_
  · rw [← hct]
    cases r1.creationTimestamp <;> simp [addGaugeLR, hn, hns]
  · refine flatMap_perm_of_forall₂ ?_ hlim
    intro a b hab
    rw [limitRangeItemSamples_congr r1 r2 a hn hns]
    exact limitRangeItemSamples_perm r2 a b hab

/-! ## Claim theorems -/

/-- C1: if a collector's `List()` returns a non-nil error, `Collect`
increments the scrape-error counter for that kind by exactly 1, emits no
samples, records no resources-per-scrape observation, and returns
normally (its whole trace is the single counter increment). -/
theorem collect_on_list_error :
    ∀ e : Err,
      limitRangeCollect (.error e) = [.scrapeError "limitrange"] ∧
      componentStatusCollect (.error e) = [.scrapeError "componentstatus"] ∧
      (limitRangeCollect (.error e)).countP Event.isScrapeError = 1 ∧
      (limitRangeCollect (.error e)).countP Event.isSample = 0 ∧
      (limitRangeCollect (.error e)).countP Event.isObserve = 0 ∧
      (componentStatusCollect (.error e)).countP Event.isScrapeError = 1 ∧
      (componentStatusCollect (.error e)).countP Event.isSample = 0 ∧
      (componentStatusCollect (.error e)).countP Event.isObserve = 0 :=
  fun _ => ⟨rfl, rfl, rfl, rfl, rfl, rfl, rfl, rfl⟩

/-- C2 counterexample: an informer whose cache has not yet synchronized
(`hasSynced = false`, store still empty).  The claim requires the
registered lister to return a non-nil error here; instead both listers
return an empty snapshot together with a nil error. -/
theorem registeredLister_unsynced_nil_error :
    (registeredLimitRangeLister ⟨[], false⟩).2 = none ∧
      (registeredLimitRangeLister ⟨[], false⟩).1 = ⟨[]⟩ ∧
      (registeredComponentStatusLister ⟨[], false⟩).2 = none ∧
      (registeredComponentStatusLister ⟨[], false⟩).1 = ⟨[]⟩ :=
  ⟨rfl, rfl, rfl, rfl⟩

/-- C2 amended: the listers built at registration unconditionally return
the informer store's current contents with a nil error; they never
consult `HasSynced` and have no error path, so an unsynchronized cache
yields a silently empty snapshot, not an error. -/
theorem registeredLister_total_nil_error :
    ∀ (i1 : SharedInformer LimitRange) (i2 : SharedInformer ComponentStatus),
      registeredLimitRangeLister i1 = ({ items := i1.storeItems }, none) ∧
      registeredComponentStatusLister i2 = ({ items := i2.storeItems }, none) :=
  fun _ _ => ⟨rfl, rfl⟩

/-- C8: on a successful `List()` returning N items, the very first event
of the `Collect` trace is the resources-per-scrape observation with count
exactly N, and everything after it is sample emissions — so the
observation is recorded before any conversion routine runs. -/
theorem observe_count_precedes_conversion :
    (∀ items : List LimitRange, ∃ samples : List Metric,
        limitRangeCollect (.ok ⟨items⟩) =
          .observeResources "limitrange" items.length :: samples.map .sample) ∧
    (∀ items : List ComponentStatus, ∃ samples : List Metric,
        componentStatusCollect (.ok ⟨items⟩) =
          .observeResources "componentstatus" items.length :: samples.map .sample) :=
  ⟨fun items => ⟨items.flatMap collectLimitRange, rfl⟩,
   fun items => ⟨items.flatMap collectComponentStatus, rfl⟩⟩

/-- C10: per object, `collectComponentStatus` emits exactly three samples
when some condition has type `ComponentHealthy` and no sample at all
otherwise; conditions of other types contribute nothing. -/
theorem componentStatus_sample_count :
    ∀ s : ComponentStatus,
      (collectComponentStatus s).length =
        if s.conditions.any (fun p => p.type == ComponentHealthy) then 3 else 0 :=
  fun s => collectComponentStatusLoop_length s s.conditions

/-- C3: every sample either collector emits carries exactly as many label
values as its descriptor declares label names (5 for `kube_limitrange`,
2 for `kube_limitrange_created`, 2 for
`kube_componentstatus_status_healthy`). -/
theorem sample_arity_eq_desc_arity :
    (∀ (rq : LimitRange) (m : Metric), m ∈ collectLimitRange rq →
       m.labelValues.length = m.desc.variableLabels.length) ∧
    (∀ (s : ComponentStatus) (m : Metric), m ∈ collectComponentStatus s →
       m.labelValues.length = m.desc.variableLabels.length) ∧
    descLimitRange.variableLabels.length = 5 ∧
    descLimitRangeCreated.variableLabels.length = 2 ∧
    descComponentStatusStatusHealthy.variableLabels.length = 2 := by
  refine ⟨?_, ?_, rfl, rfl, rfl⟩
  · intro rq m hm
    unfold collectLimitRange at hm
    rcases List.mem_append.mp hm with h | h
    · cases hc : rq.creationTimestamp <;> rw [hc] at h
      · simp at h
      · rw [List.mem_singleton] at h
        subst h
        rfl
    · rcases List.mem_flatMap.mp h with ⟨item, _, hmem⟩
      rw [mem_limitRangeItemSamples_labels rq item m hmem,
        mem_limitRangeItemSamples_desc rq item m hmem]
      rfl
  · intro s m hm
    rw [mem_collectComponentStatus_labels s m hm,
      mem_collectComponentStatus_desc s m hm]
    rfl

/-- C3 witness: the arity equation at one concrete sample of each
collector — the `_created` gauge of one limit range, and the `status`
gauge of one component status. -/
theorem sample_arity_eq_desc_arity_witness :
    (addGaugeLR ⟨"quota", "default", some 5, []⟩ descLimitRangeCreated
        ((5 : Int) : Rat) []).labelValues.length =
      (addGaugeLR ⟨"quota", "default", some 5, []⟩ descLimitRangeCreated
        ((5 : Int) : Rat) []).desc.variableLabels.length ∧
    (addGaugeCS ⟨"etcd-0", [⟨"Healthy", "True"⟩]⟩ descComponentStatusStatusHealthy
        1 ["True"]).labelValues.length =
      (addGaugeCS ⟨"etcd-0", [⟨"Healthy", "True"⟩]⟩ descComponentStatusStatusHealthy
        1 ["True"]).desc.variableLabels.length :=
  ⟨sample_arity_eq_desc_arity.1 ⟨"quota", "default", some 5, []⟩ _
     (by simp [collectLimitRange]),
   sample_arity_eq_desc_arity.2.1 ⟨"etcd-0", [⟨"Healthy", "True"⟩]⟩ _
     (by simp [collectComponentStatus, collectComponentStatusLoop, healthyExpansion,
        ComponentHealthy, boolFloat64, ConditionTrue])⟩

/-- C4 counterexample: `v1.ConditionStatus` is a Go string type, so a
condition status outside {"True", "False", "Unknown"} is a possible
status value.  For such a status the three emitted samples are all 0 —
not "exactly one equals 1", as the claim requires for every possible
status value. -/
theorem triState_noncanonical_all_zero :
    (collectComponentStatus ⟨"controller-manager", [⟨"Healthy", "Bogus"⟩]⟩).length = 3 ∧
    (collectComponentStatus ⟨"controller-manager", [⟨"Healthy", "Bogus"⟩]⟩).countP
        (fun m => m.value == 1) = 0 ∧
    (collectComponentStatus ⟨"controller-manager", [⟨"Healthy", "Bogus"⟩]⟩).countP
        (fun m => m.value == 0) = 3 := by
  decide

/-- C4 amended: for an object whose first `ComponentHealthy` condition is
`p`, the collector emits exactly the three status gauges labeled True,
False, Unknown, the one labeled `v` holding 1 exactly when `p.status = v`;
consequently when `p.status` is one of the three canonical values, exactly
one sample is 1 and the other two are 0 (for a non-canonical status all
three are 0). -/
theorem triState_expansion :
    ∀ (s : ComponentStatus) (p : ComponentCondition),
      s.conditions.find? (fun q => q.type == ComponentHealthy) = some p →
      collectComponentStatus s =
        [addGaugeCS s descComponentStatusStatusHealthy
            (boolFloat64 (p.status == ConditionTrue)) [ConditionTrue],
         addGaugeCS s descComponentStatusStatusHealthy
            (boolFloat64 (p.status == ConditionFalse)) [ConditionFalse],
         addGaugeCS s descComponentStatusStatusHealthy
            (boolFloat64 (p.status == ConditionUnknown)) [ConditionUnknown]] ∧
      ((p.status = ConditionTrue ∨ p.status = ConditionFalse ∨ p.status = ConditionUnknown) →
        (collectComponentStatus s).countP (fun m => m.value == 1) = 1 ∧
        (collectComponentStatus s).countP (fun m => m.value == 0) = 2) := by
  intro s p hfind
  have hexp : collectComponentStatus s = healthyExpansion s p := by
    unfold collectComponentStatus
    rw [collectComponentStatusLoop_eq_find, hfind]
  refine ⟨hexp, ?_⟩
  intro hst
  rw [hexp]
  rcases hst with h | h | h <;>
    simp [healthyExpansion, addGaugeCS, boolFloat64, h, ConditionTrue, ConditionFalse,
      ConditionUnknown, List.countP_cons]

/-- C4 witness: the amended statement at a concrete object whose healthy
condition has status "Unknown": the three samples are (0, 0, 1) and the
1-count is exactly one. -/
theorem triState_expansion_witness :
    collectComponentStatus ⟨"scheduler", [⟨"Healthy", "Unknown"⟩]⟩ =
      [addGaugeCS ⟨"scheduler", [⟨"Healthy", "Unknown"⟩]⟩
          descComponentStatusStatusHealthy 0 [ConditionTrue],
       addGaugeCS ⟨"scheduler", [⟨"Healthy", "Unknown"⟩]⟩
          descComponentStatusStatusHealthy 0 [ConditionFalse],
       addGaugeCS ⟨"scheduler", [⟨"Healthy", "Unknown"⟩]⟩
          descComponentStatusStatusHealthy 1 [ConditionUnknown]] ∧
    (collectComponentStatus ⟨"scheduler", [⟨"Healthy", "Unknown"⟩]⟩).countP
        (fun m => m.value == 1) = 1 ∧
    (collectComponentStatus ⟨"scheduler", [⟨"Healthy", "Unknown"⟩]⟩).countP
        (fun m => m.value == 0) = 2 :=
  ⟨(triState_expansion ⟨"scheduler", [⟨"Healthy", "Unknown"⟩]⟩ ⟨"Healthy", "Unknown"⟩
      (by decide)).1,
   (triState_expansion ⟨"scheduler", [⟨"Healthy", "Unknown"⟩]⟩ ⟨"Healthy", "Unknown"⟩
      (by decide)).2 (Or.inr (Or.inr rfl))⟩

/-- C5 counterexample: the `break` in `collectComponentStatus` only stops
the loop over ONE object's conditions; `Collect` still runs the converter
for every object in the snapshot.  With two objects that each carry a
`ComponentHealthy` condition, the scrape emits two full sets (six
samples) of the healthy family — not "no more than one set per scrape". -/
theorem healthy_sets_two_objects :
    (componentStatusCollect (.ok ⟨[⟨"scheduler", [⟨"Healthy", "True"⟩]⟩,
        ⟨"etcd-0", [⟨"Healthy", "False"⟩]⟩]⟩)).countP Event.isHealthySample = 6 ∧
    ¬ ((componentStatusCollect (.ok ⟨[⟨"scheduler", [⟨"Healthy", "True"⟩]⟩,
        ⟨"etcd-0", [⟨"Healthy", "False"⟩]⟩]⟩)).countP Event.isHealthySample ≤ 3) := by
  decide

/-- C5 amended: the first-match `break` bounds the expansion per OBJECT —
each object yields at most one set of status samples (at most 3) — and
per scrape the number of healthy-family samples is exactly 3 times the
number of snapshot objects having at least one `ComponentHealthy`
condition, so one set per such object, not one set per scrape. -/
theorem healthy_sets_per_scrape :
    (∀ s : ComponentStatus, (collectComponentStatus s).length ≤ 3) ∧
    (∀ l : ComponentStatusList,
      (componentStatusCollect (.ok l)).countP Event.isHealthySample =
        3 * l.items.countP
          (fun s => s.conditions.any (fun p => p.type == ComponentHealthy))) := by
  constructor
  · intro s
    have hlen : (collectComponentStatus s).length =
        if s.conditions.any (fun p => p.type == ComponentHealthy) then 3 else 0 :=
      collectComponentStatusLoop_length s s.conditions
    rw [hlen]
    split <;> omega
  · intro l
    show (Event.observeResources "componentstatus" l.items.length ::
        (l.items.flatMap collectComponentStatus).map Event.sample).countP
          Event.isHealthySample = _
    rw [List.countP_cons]
    have hobs : Event.isHealthySample
        (Event.observeResources "componentstatus" l.items.length) = false := rfl
    rw [hobs, List.countP_map]
    have hall : (l.items.flatMap collectComponentStatus).countP
        (Event.isHealthySample ∘ Event.sample) =
        (l.items.flatMap collectComponentStatus).length := by
      rw [List.countP_eq_length]
      intro m hm
      show (m.desc == descComponentStatusStatusHealthy) = true
      rcases List.mem_flatMap.mp hm with ⟨s, _, hmem⟩
      rw [mem_collectComponentStatus_desc s m hmem]
      decide
    rw [hall, List.length_flatMap, sum_healthy_lengths]
    simp

/-- C6: the `_created` family for one limit range: no sample at all when
the creation timestamp is the zero time, and exactly one sample, valued
at the timestamp's unix seconds, when it is non-zero. -/
theorem created_sample_iff_nonzero_timestamp :
    ∀ rq : LimitRange,
      (rq.creationTimestamp = none →
        (collectLimitRange rq).filter (fun m => m.desc == descLimitRangeCreated) = []) ∧
      (∀ u : Int, rq.creationTimestamp = some u →
        (collectLimitRange rq).filter (fun m => m.desc == descLimitRangeCreated) =
          [addGaugeLR rq descLimitRangeCreated (u : Rat) []]) := by
  intro rq
  constructor
  · intro h
    unfold collectLimitRange
    rw [h, List.filter_append, filter_created_itemSamples]
    rfl
  · intro u h
    unfold collectLimitRange
    rw [h, List.filter_append, filter_created_itemSamples]
    simp [addGaugeLR]

/-- C6 witness: one object with the zero timestamp emits no `_created`
sample; one with unix timestamp 1609459200 emits exactly one, valued
1609459200. -/
theorem created_sample_iff_nonzero_timestamp_witness :
    (collectLimitRange ⟨"a", "ns0", none, []⟩).filter
        (fun m => m.desc == descLimitRangeCreated) = [] ∧
    (collectLimitRange ⟨"b", "ns0", some 1609459200, []⟩).filter
        (fun m => m.desc == descLimitRangeCreated) =
      [addGaugeLR ⟨"b", "ns0", some 1609459200, []⟩ descLimitRangeCreated
        ((1609459200 : Int) : Rat) []] :=
  ⟨(created_sample_iff_nonzero_timestamp ⟨"a", "ns0", none, []⟩).1 rfl,
   (created_sample_iff_nonzero_timestamp ⟨"b", "ns0", some 1609459200, []⟩).2
      1609459200 rfl⟩

/-- C7: every entry (resource `r`, quantity of milli-value `q`) of every
constraint map of every limit item on an object yields a `kube_limitrange`
sample whose value is exactly `q / 1000` as an exact rational — full
precision, no intermediate rounding. -/
theorem constraint_value_exact :
    ∀ (rq : LimitRange) (item : LimitRangeItem), item ∈ rq.limits →
      ∀ (r : ResourceName) (q : Quantity),
        ((r, q) ∈ item.min →
          addGaugeLR rq descLimitRange ((q : Rat) / 1000) [r, item.type, "min"] ∈
            collectLimitRange rq) ∧
        ((r, q) ∈ item.max →
          addGaugeLR rq descLimitRange ((q : Rat) / 1000) [r, item.type, "max"] ∈
            collectLimitRange rq) ∧
        ((r, q) ∈ item.default →
          addGaugeLR rq descLimitRange ((q : Rat) / 1000) [r, item.type, "default"] ∈
            collectLimitRange rq) ∧
        ((r, q) ∈ item.defaultRequest →
          addGaugeLR rq descLimitRange ((q : Rat) / 1000) [r, item.type, "defaultRequest"] ∈
            collectLimitRange rq) ∧
        ((r, q) ∈ item.maxLimitRequestRatio →
          addGaugeLR rq descLimitRange ((q : Rat) / 1000)
              [r, item.type, "maxLimitRequestRatio"] ∈
            collectLimitRange rq) := by
  intro rq item hitem r q
  refine ⟨fun hq => ?_, fun hq => ?_, fun hq => ?_, fun hq => ?_, fun hq => ?_⟩ <;>
    · unfold collectLimitRange
      apply List.mem_append_right
      refine List.mem_flatMap.mpr ⟨item, hitem, ?_⟩
      unfold limitRangeItemSamples
      first
        | exact List.mem_append_left _ (List.mem_append_left _ (List.mem_append_left _
            (List.mem_append_left _ (List.mem_map_of_mem _ hq))))
        | exact List.mem_append_left _ (List.mem_append_left _ (List.mem_append_left _
            (List.mem_append_right _ (List.mem_map_of_mem _ hq))))
        | exact List.mem_append_left _ (List.mem_append_left _
            (List.mem_append_right _ (List.mem_map_of_mem _ hq)))
        | exact List.mem_append_left _ (List.mem_append_right _ (List.mem_map_of_mem _ hq))
        | exact List.mem_append_right _ (List.mem_map_of_mem _ hq)

/-- C7 witness: a `Container`-type min constraint on `cpu` with
milli-value 1500 emits a sample valued exactly 3/2 = 1.5. -/
theorem constraint_value_exact_witness :
    ((1500 : Int) : Rat) / 1000 = 3 / 2 ∧
    addGaugeLR ⟨"limits", "default", none, [⟨"Container", [], [("cpu", 1500)], [], [], []⟩]⟩
        descLimitRange (((1500 : Int) : Rat) / 1000) ["cpu", "Container", "min"] ∈
      collectLimitRange
        ⟨"limits", "default", none, [⟨"Container", [], [("cpu", 1500)], [], [], []⟩]⟩ :=
  ⟨by norm_num,
   (constraint_value_exact _ _ (List.mem_singleton.mpr rfl) "cpu" 1500).1
      (List.mem_singleton.mpr rfl)⟩

/-- C9 counterexample: the limitrange converter iterates Go maps, whose
iteration order the Go specification leaves unspecified (and the runtime
varies between iterations).  The two snapshots below present the SAME
fixed snapshot — identical in everything but the entry order of one
constraint map, exactly the freedom Go gives two successive `range`
iterations of one unchanged map — yet the two `Collect` traces differ in
sample order, so two successive calls need not produce identical ordered
sample sets. -/
theorem collect_order_not_map_invariant :
    sameLimitRangeList
        ⟨[⟨"limits", "default", none,
            [⟨"Container", [], [("cpu", 1), ("memory", 2)], [], [], []⟩]⟩]⟩
        ⟨[⟨"limits", "default", none,
            [⟨"Container", [], [("memory", 2), ("cpu", 1)], [], [], []⟩]⟩]⟩ ∧
    limitRangeCollect (.ok ⟨[⟨"limits", "default", none,
        [⟨"Container", [], [("cpu", 1), ("memory", 2)], [], [], []⟩]⟩]⟩) ≠
      limitRangeCollect (.ok ⟨[⟨"limits", "default", none,
        [⟨"Container", [], [("memory", 2), ("cpu", 1)], [], [], []⟩]⟩]⟩) := by
  constructor
  · exact List.Forall₂.cons ⟨rfl, rfl, rfl, List.Forall₂.cons
      ⟨rfl, List.Perm.refl _, List.Perm.swap _ _ _, List.Perm.refl _, List.Perm.refl _,
        List.Perm.refl _⟩ List.Forall₂.nil⟩ List.Forall₂.nil
  · intro h
    simp [limitRangeCollect, collectLimitRange, limitRangeItemSamples, addGaugeLR] at h

/-- C9 amended: two presentations of the same fixed snapshot (equal up to
Go map iteration order) yield `Collect` traces that are permutations of
each other — the same multiset of samples with the same descriptors,
label values and numeric values, but not necessarily in the same order
(the componentstatus collector iterates no maps, so as a pure function of
the snapshot it is outright deterministic). -/
theorem limitRangeCollect_perm_of_same_snapshot :
    ∀ l1 l2 : LimitRangeList, sameLimitRangeList l1 l2 →
      (limitRangeCollect (.ok l1)).Perm (limitRangeCollect (.ok l2)) := by
  intro l1 l2 h
  have hlen : l1.items.length = l2.items.length := List.Forall₂.length_eq h
  have hperm : (l1.items.flatMap collectLimitRange).Perm
      (l2.items.flatMap collectLimitRange) :=
    flatMap_perm_of_forall₂ collectLimitRange_perm h
  show (Event.observeResources "limitrange" l1.items.length ::
      (l1.items.flatMap collectLimitRange).map Event.sample).Perm
    (Event.observeResources "limitrange" l2.items.length ::
      (l2.items.flatMap collectLimitRange).map Event.sample)
  rw [hlen]
  exact (hperm.map Event.sample).cons _

/-- C9 witness: the amended statement at the two concrete map
presentations of the counterexample's snapshot. -/
theorem limitRangeCollect_perm_of_same_snapshot_witness :
    (limitRangeCollect (.ok ⟨[⟨"limits", "default", none,
        [⟨"Container", [], [("cpu", 1), ("memory", 2)], [], [], []⟩]⟩]⟩)).Perm
      (limitRangeCollect (.ok ⟨[⟨"limits", "default", none,
        [⟨"Container", [], [("memory", 2), ("cpu", 1)], [], [], []⟩]⟩]⟩)) :=
  limitRangeCollect_perm_of_same_snapshot _ _
    (List.Forall₂.cons ⟨rfl, rfl, rfl, List.Forall₂.cons
      ⟨rfl, List.Perm.refl _, List.Perm.swap _ _ _, List.Perm.refl _, List.Perm.refl _,
        List.Perm.refl _⟩ List.Forall₂.nil⟩ List.Forall₂.nil)

end KSM
